import Mathlib

/-!
Shallow embedding of the BadgerDB buffer manager (`src/buffer.cpp`) and
verification of its specification claims.

The `File` collaborator is modelled by a numeric identity; a descriptor
whose `fileId` is `none` owns no file (the cleared / default state).
The Page Index (`BufHashTbl`) is modelled as an association list from
`(file, page)` keys to frame ids.  Page Store I/O is recorded in logs:
`diskWrites` for `writePage`, `diskDeletes` for `deletePage`, and the
`diskreads` counter for `readPage` (mirroring `bufStats.diskreads`).
-/

namespace BadgerDB

/-- Frame descriptor, one per buffer pool slot (`BufDesc` in the source).
`fileId = none` models the empty file reference of a free descriptor. -/
structure BufDesc where
  frameNo : Nat
  fileId : Option Nat
  pageNo : Nat
  valid : Bool
  refbit : Bool
  dirty : Bool
  pinCnt : Nat
deriving DecidableEq

/-- The exception kinds thrown by the buffer manager. -/
inductive BufError where
  | bufferExceeded
  | pageNotPinned
  | pagePinned
  | badBuffer
deriving DecidableEq

/-- The buffer manager state: descriptor table, page index (hash table),
clock hand, statistics counters, and logs of Page Store side effects. -/
structure BufState where
  numBufs : Nat
  clockHand : Nat
  bufDescTable : List BufDesc
  hashTable : List ((Nat × Nat) × Nat)
  accesses : Nat
  diskreads : Nat
  diskWrites : List (Option Nat × Nat)
  diskDeletes : List (Nat × Nat)
deriving DecidableEq

/-- Default descriptor used as the out-of-range fallback for table reads. -/
def defaultDesc : BufDesc :=
  { frameNo := 0
    fileId := none
    pageNo := 0
    valid := false
    refbit := false
    dirty := false
    pinCnt := 0 }

/-- Descriptor at slot `i` of the table. -/
def descAt (s : BufState) (i : Nat) : BufDesc :=
  s.bufDescTable.getD i defaultDesc

/-- Modelled from the spec (§4.1, §3; `BufDesc::clear` lives in the missing
`buffer.h`): reset a descriptor to the free state; only `frameId` survives,
every other field resets to its empty value. -/
def clearedDesc (n : Nat) : BufDesc :=
  { frameNo := n
    fileId := none
    pageNo := 0
    valid := false
    refbit := false
    dirty := false
    pinCnt := 0 }

/-- Modelled from the spec (§4.1; `BufDesc::Set` lives in the missing
`buffer.h`): transition a descriptor to valid/pinned, recording identity,
with `pinCount = 1`, `refBit = true`, `dirty = false`. -/
def setDesc (d : BufDesc) (f p : Nat) : BufDesc :=
  { d with
    fileId := some f
    pageNo := p
    valid := true
    refbit := true
    dirty := false
    pinCnt := 1 }

/-- Page Index lookup (`BufHashTbl::lookup`): first entry with the key,
`none` models `HashNotFoundException`. -/
def htLookup : List ((Nat × Nat) × Nat) → Nat → Nat → Option Nat
  | [], _, _ => none
  | (k, v) :: rest, f, p => if k = (f, p) then some v else htLookup rest f p

/-- Page Index removal (`BufHashTbl::remove`): drop the entries with the key. -/
def htRemove (ht : List ((Nat × Nat) × Nat)) (f p : Nat) :
    List ((Nat × Nat) × Nat) :=
  ht.filter (fun e => !(e.1 = (f, p) : Bool))

/-- `BufMgr::advanceClock`: `clockHand = (clockHand + 1) % numBufs`. -/
def advanceClock (s : BufState) : BufState :=
  { s with clockHand := (s.clockHand + 1) % s.numBufs }

/-- Clear the reference bit of the frame under the clock hand
(the second-chance step of `BufMgr::allocBuf`). -/
def clearRefbitAtHand (s : BufState) : BufState :=
  { s with bufDescTable :=
      (s.bufDescTable.set s.clockHand
        { descAt s s.clockHand with refbit := false }) }

/-- The dirty-victim branch of `BufMgr::allocBuf`: write the page back,
remove the index entry for the victim identity, and clear the descriptor. -/
def evictDirty (s : BufState) (d : BufDesc) : BufState :=
  { s with
    diskWrites := (d.fileId, d.pageNo) :: s.diskWrites
    hashTable := match d.fileId with
      | some f => htRemove s.hashTable f d.pageNo
      | none => s.hashTable
    bufDescTable := s.bufDescTable.set s.clockHand (clearedDesc d.frameNo) }

/-- The clock sweep of `BufMgr::allocBuf`.  `fuel` counts the remaining
permitted busy visits: the C++ loop runs while `frame_count <= numBufs`
and `frame_count` increments exactly on the two busy branches, so `fuel`
is `numBufs + 1 - frame_count`; fuel 0 models exiting the loop with
`alloc == false` and throwing `BufferExceededException` (`none`).
The returned state carries the sweep's side effects (cleared refbits,
advanced hand, dirty-victim eviction), which persist across the throw. -/
def allocBufLoop (fuel : Nat) (s : BufState) : Option Nat × BufState :=
  match fuel with
  | 0 => (none, s)
  | fuel + 1 =>
    let d := descAt s s.clockHand
    if d.valid = false then (some d.frameNo, s)
    else if d.refbit = true then allocBufLoop fuel (advanceClock (clearRefbitAtHand s))
    else if d.pinCnt = 0 then
      if d.dirty = true then (some d.frameNo, evictDirty s d)
      else (some d.frameNo, s)
    else allocBufLoop fuel (advanceClock s)

/-- `BufMgr::allocBuf`: run the clock sweep with `frame_count` starting
at 0, i.e. `numBufs + 1` permitted busy visits. -/
def allocBuf (s : BufState) : Option Nat × BufState :=
  allocBufLoop (s.numBufs + 1) s

/-- `BufMgr::readPage`.  The second component models the out-parameter
`Page*& page`: `some fr` means it points into pool frame `fr`, `none`
means the function returned with the pointer never assigned (which the
source does when `allocBuf` throws `BufferExceededException` and the
`catch` block merely prints to `cerr`).  `readPage` itself never throws. -/
def readPage (s : BufState) (f p : Nat) : BufState × Option Nat :=
  match htLookup s.hashTable f p with
  | some fr =>
    ({ s with
        bufDescTable := s.bufDescTable.set fr
          { descAt s fr with refbit := true, pinCnt := (descAt s fr).pinCnt + 1 }
        accesses := s.accesses + 1 }, some fr)
  | none =>
    match allocBuf s with
    | (none, s1) => (s1, none)
    | (some fr, s1) =>
      let s2 := { s1 with diskreads := s1.diskreads + 1 }
      let s3 := { s2 with hashTable := ((f, p), fr) :: s2.hashTable }
      ({ s3 with bufDescTable := s3.bufDescTable.set fr (setDesc (descAt s3 fr) f p) },
       some fr)

/-- `BufMgr::unPinPage`.  `none` in the first component means a normal
return; `HashNotFoundException` is caught inside (logged to `cerr`),
so an index miss also returns normally and changes nothing. -/
def unPinPage (s : BufState) (f p : Nat) (m : Bool) : Option BufError × BufState :=
  match htLookup s.hashTable f p with
  | none => (none, s)
  | some fr =>
    if (descAt s fr).pinCnt = 0 then (some BufError.pageNotPinned, s)
    else (none, { s with bufDescTable :=
        (s.bufDescTable.set fr
          { descAt s fr with
            pinCnt := (descAt s fr).pinCnt - 1
            dirty := m || (descAt s fr).dirty }) })

/-- One iteration of the `BufMgr::flushFile` loop at slot `id`:
check the slot, and if it belongs to `fid`, either throw (`some` error,
state as mutated so far) or write back / clear it. -/
def flushStep (fid : Nat) (s : BufState) (id : Nat) : Option BufError × BufState :=
  if (descAt s id).fileId = some fid then
    if (descAt s id).pinCnt ≠ 0 then (some BufError.pagePinned, s)
    else if (descAt s id).valid = false then (some BufError.badBuffer, s)
    else if (descAt s id).dirty then
      (none, { s with
        diskWrites := (some fid, (descAt s id).pageNo) :: s.diskWrites
        hashTable := htRemove s.hashTable fid (descAt s id).pageNo
        bufDescTable := (s.bufDescTable.set id { descAt s id with dirty := false }).set id
          (clearedDesc (descAt s id).frameNo) })
    else
      (none, { s with
        hashTable := htRemove s.hashTable fid (descAt s id).pageNo
        bufDescTable := s.bufDescTable.set id (clearedDesc (descAt s id).frameNo) })
  else (none, s)

/-- The `BufMgr::flushFile` loop over the given slot ids, propagating the
first thrown exception; mutations from earlier iterations persist. -/
def flushFileLoop (fid : Nat) : BufState → List Nat → Option BufError × BufState
  | s, [] => (none, s)
  | s, id :: rest =>
    match flushStep fid s id with
    | (some e, s1) => (some e, s1)
    | (none, s1) => flushFileLoop fid s1 rest

/-- `BufMgr::flushFile`: one pass over all slots in ascending order. -/
def flushFile (fid : Nat) (s : BufState) : Option BufError × BufState :=
  flushFileLoop fid s (List.range s.numBufs)

/-- `BufMgr::disposePage`: on an index hit clear the descriptor and remove
the entry (`HashNotFoundException` is caught and ignored), then
unconditionally delete the on-disk page.  Never throws. -/
def disposePage (s : BufState) (f p : Nat) : BufState :=
  let s1 := match htLookup s.hashTable f p with
    | some fr =>
      { s with
        bufDescTable := s.bufDescTable.set fr (clearedDesc (descAt s fr).frameNo)
        hashTable := htRemove s.hashTable f p }
    | none => s
  { s1 with diskDeletes := (f, p) :: s1.diskDeletes }

/-- Structural well-formedness of a pool state: the table has `numBufs`
entries, the clock hand is in range, each descriptor records its own slot
id (as the constructor establishes), and index entries map into the pool. -/
def WF (s : BufState) : Prop :=
  s.bufDescTable.length = s.numBufs ∧
  s.clockHand < s.numBufs ∧
  (∀ i, i < s.numBufs → (descAt s i).frameNo = i) ∧
  (∀ e ∈ s.hashTable, e.2 < s.numBufs)

instance (s : BufState) : Decidable (WF s) := by
  unfold WF
  infer_instance

/-! ### Concrete pool states used as inputs for evaluation -/

/-- Build a descriptor from all of its fields. -/
def mkDesc (n : Nat) (f : Option Nat) (p : Nat) (v r dt : Bool) (pc : Nat) : BufDesc :=
  { frameNo := n
    fileId := f
    pageNo := p
    valid := v
    refbit := r
    dirty := dt
    pinCnt := pc }

/-- One-frame pool holding page (5, 7): valid, unpinned, refbit clear,
clean — an immediate clean victim for the clock sweep. -/
def stateCleanVictim : BufState :=
  { numBufs := 1
    clockHand := 0
    bufDescTable := [mkDesc 0 (some 5) 7 true false false 0]
    hashTable := [((5, 7), 0)]
    accesses := 0
    diskreads := 0
    diskWrites := []
    diskDeletes := [] }

/-- One-frame pool holding page (2, 3), pinned once: nothing evictable. -/
def statePinnedOne : BufState :=
  { numBufs := 1
    clockHand := 0
    bufDescTable := [mkDesc 0 (some 2) 3 true false false 1]
    hashTable := [((2, 3), 0)]
    accesses := 0
    diskreads := 0
    diskWrites := []
    diskDeletes := [] }

/-- Two-frame pool: frame 0 pinned with refbit set, frame 1 valid,
unpinned, clean, with refbit set.  Frame 1 is evictable in principle, but
the sweep spends its visit budget before returning to it. -/
def stateTwoMixed : BufState :=
  { numBufs := 2
    clockHand := 0
    bufDescTable := [mkDesc 0 (some 1) 10 true true false 1,
                     mkDesc 1 (some 1) 11 true true false 0]
    hashTable := [((1, 10), 0), ((1, 11), 1)]
    accesses := 0
    diskreads := 0
    diskWrites := []
    diskDeletes := [] }

/-- Two-frame pool, both frames owned by file 3: frame 0 dirty and
unpinned, frame 1 pinned twice. -/
def stateFlushPartial : BufState :=
  { numBufs := 2
    clockHand := 0
    bufDescTable := [mkDesc 0 (some 3) 1 true false true 0,
                     mkDesc 1 (some 3) 2 true false false 2]
    hashTable := [((3, 1), 0), ((3, 2), 1)]
    accesses := 0
    diskreads := 0
    diskWrites := []
    diskDeletes := [] }

/-- One-frame pool with a free frame and an empty index. -/
def stateFreeOne : BufState :=
  { numBufs := 1
    clockHand := 0
    bufDescTable := [mkDesc 0 none 0 false false false 0]
    hashTable := []
    accesses := 0
    diskreads := 0
    diskWrites := []
    diskDeletes := [] }

/-! ### Helper lemmas -/

theorem tableGet_set_self (l : List BufDesc) (i : Nat) (d : BufDesc)
    (h : i < l.length) :
    (l.set i d)[i]?.getD defaultDesc = d := by
  simp [List.getElem?_set_self, h]

theorem tableGet_set_ne (l : List BufDesc) (i j : Nat) (d : BufDesc) (h : j ≠ i) :
    (l.set i d)[j]?.getD defaultDesc = l[j]?.getD defaultDesc := by
  rw [List.getElem?_set_ne (Ne.symm h)]

theorem htLookup_mem (ht : List ((Nat × Nat) × Nat)) (f p fr : Nat)
    (h : htLookup ht f p = some fr) : ((f, p), fr) ∈ ht := by
  induction ht with
  | nil => simp [htLookup] at h
  | cons e rest ih =>
    rw [htLookup] at h
    by_cases hk : e.1 = (f, p)
    · simp only [hk, if_pos rfl] at h
      cases h
      rw [← hk]
      simp
    · simp only [if_neg hk] at h
      exact List.mem_cons_of_mem _ (ih h)

theorem htLookup_htRemove_self (ht : List ((Nat × Nat) × Nat)) (f p : Nat) :
    htLookup (htRemove ht f p) f p = none := by
  induction ht with
  | nil => rfl
  | cons e rest ih =>
    rw [htRemove, List.filter]
    by_cases hk : e.1 = (f, p)
    · simp only [hk, decide_True, Bool.not_true]
      exact ih
    · simp only [decide_eq_true_eq, hk, decide_False, Bool.not_false]
      rw [htLookup, if_neg hk]
      exact ih

/-! ### Claim theorems -/

/-- Claim C1 (failing-input evaluation): on the non-dirty victim path the
clock engine returns the frame without removing the Page Index entry or
resetting the descriptor.  In `stateCleanVictim`, frame 0 is a valid,
unpinned, refbit-clear, clean victim for page (5, 7); `allocBuf` selects it
yet returns the state completely unchanged: the index still maps (5, 7) to
frame 0 and the descriptor is still valid, leaving a stale mapping to a
frame about to be overwritten. -/
theorem allocBuf_clean_victim_stale :
    allocBuf stateCleanVictim = (some 0, stateCleanVictim) ∧
    htLookup stateCleanVictim.hashTable 5 7 = some 0 ∧
    (descAt stateCleanVictim 0).valid = true ∧
    (descAt stateCleanVictim 0).dirty = false ∧
    (descAt stateCleanVictim 0).pinCnt = 0 := by
  decide

/-- Claim C2 (failing-input evaluation): when the miss path's allocation
fails with `BufferExceeded`, `readPage` catches the exception, merely logs
it, and returns normally with the out-parameter never assigned (`none`) —
the failure is not surfaced to the caller.  In `statePinnedOne` the single
frame is pinned, so reading the absent page (9, 9) exhausts the sweep. -/
theorem readPage_swallows_buffer_exceeded :
    htLookup statePinnedOne.hashTable 9 9 = none ∧
    (allocBuf statePinnedOne).1 = none ∧
    readPage statePinnedOne 9 9 = (statePinnedOne, none) := by
  decide

/-- Claim C3 (counterexample): `flushFile` is not atomic on detected
violations.  In `stateFlushPartial`, frame 1 of file 3 is pinned, so the
call fails with `PagePinned`; but frame 0 of the same file has by then
already been written back (one entry in the write log) and its descriptor
cleared — the file's frames are not left unmodified. -/
theorem flushFile_not_atomic :
    (flushFile 3 stateFlushPartial).1 = some BufError.pagePinned ∧
    (descAt stateFlushPartial 0).valid = true ∧
    stateFlushPartial.diskWrites = [] ∧
    (descAt (flushFile 3 stateFlushPartial).2 0).valid = false ∧
    (flushFile 3 stateFlushPartial).2.diskWrites = [(some 3, 1)] := by
  decide

/-- Claim C9 (counterexample): `unPinPage` on a page absent from the Page
Index is not surfaced as an error: with an empty index it returns normally
(`none`) and leaves the state untouched — the caller's logic error is
absorbed after logging. -/
theorem unPinPage_absent_not_surfaced :
    htLookup stateFreeOne.hashTable 1 1 = none ∧
    unPinPage stateFreeOne 1 1 true = (none, stateFreeOne) := by
  decide

/-- Claim C9 (amended): for every call to `unPinPage` on a page absent
from the Page Index, the `HashNotFoundException` is caught internally: the
call logs the condition, returns normally with no error, and leaves the
pool state unchanged. -/
theorem unPinPage_absent_absorbed (s : BufState) (f p : Nat) (m : Bool)
    (hl : htLookup s.hashTable f p = none) :
    unPinPage s f p m = (none, s) := by
  unfold unPinPage
  rw [hl]

/-- Claim C9 (amended, witness): concrete instance on `stateFreeOne`
at page (8, 9). -/
theorem unPinPage_absent_absorbed_witness :
    unPinPage stateFreeOne 8 9 false = (none, stateFreeOne) :=
  unPinPage_absent_absorbed stateFreeOne 8 9 false (by decide)

/-- Claim C7: `unPinPage` on a page present in the Page Index.  If the
frame's pin count is zero the call throws `PageNotPinned` and changes
nothing; otherwise it returns normally, decrements the pin count by
exactly one, sets the dirty bit to `markDirty || old` (set when
`markDirty`, unchanged — sticky — otherwise), preserves the other
descriptor bits, and touches no other frame, no index entry and no disk
state. -/
theorem unPinPage_spec (s : BufState) (f p : Nat) (m : Bool) (fr : Nat)
    (hwf : WF s) (hl : htLookup s.hashTable f p = some fr) :
    ((descAt s fr).pinCnt = 0 →
      unPinPage s f p m = (some BufError.pageNotPinned, s)) ∧
    ((descAt s fr).pinCnt ≠ 0 →
      (unPinPage s f p m).1 = none ∧
      (descAt (unPinPage s f p m).2 fr).pinCnt = (descAt s fr).pinCnt - 1 ∧
      (descAt (unPinPage s f p m).2 fr).dirty = (m || (descAt s fr).dirty) ∧
      (descAt (unPinPage s f p m).2 fr).valid = (descAt s fr).valid ∧
      (descAt (unPinPage s f p m).2 fr).refbit = (descAt s fr).refbit ∧
      (descAt (unPinPage s f p m).2 fr).fileId = (descAt s fr).fileId ∧
      (descAt (unPinPage s f p m).2 fr).pageNo = (descAt s fr).pageNo ∧
      (∀ j, j ≠ fr → descAt (unPinPage s f p m).2 j = descAt s j) ∧
      (unPinPage s f p m).2.hashTable = s.hashTable ∧
      (unPinPage s f p m).2.diskWrites = s.diskWrites ∧
      (unPinPage s f p m).2.diskreads = s.diskreads) := by
  obtain ⟨hlen, hhand, hframe, hrange⟩ := hwf
  have hfr : fr < s.bufDescTable.length := by
    rw [hlen]
    exact hrange _ (htLookup_mem _ _ _ _ hl)
  constructor
  · intro h0
    unfold unPinPage
    rw [hl]
    simp [h0]
  · intro hne
    have hne2 : (s.bufDescTable[fr]?.getD defaultDesc).pinCnt ≠ 0 := by
      simpa [descAt, List.getD] using hne
    unfold unPinPage
    rw [hl]
    refine ⟨?_, ?_, ?_, ?_, ?_, ?_, ?_, ?_, ?_, ?_, ?_⟩ <;>
      simp [if_neg hne2, descAt, List.getD, tableGet_set_self _ fr _ hfr]
    intro j hj
    rw [tableGet_set_ne _ fr j _ hj]

/-- Claim C7 (witness): concrete instance on `statePinnedOne`, whose
single frame holds page (2, 3) with pin count 1. -/
theorem unPinPage_spec_witness :
    ((descAt statePinnedOne 0).pinCnt = 0 →
      unPinPage statePinnedOne 2 3 true = (some BufError.pageNotPinned, statePinnedOne)) ∧
    ((descAt statePinnedOne 0).pinCnt ≠ 0 →
      (unPinPage statePinnedOne 2 3 true).1 = none ∧
      (descAt (unPinPage statePinnedOne 2 3 true).2 0).pinCnt =
        (descAt statePinnedOne 0).pinCnt - 1 ∧
      (descAt (unPinPage statePinnedOne 2 3 true).2 0).dirty =
        (true || (descAt statePinnedOne 0).dirty) ∧
      (descAt (unPinPage statePinnedOne 2 3 true).2 0).valid =
        (descAt statePinnedOne 0).valid ∧
      (descAt (unPinPage statePinnedOne 2 3 true).2 0).refbit =
        (descAt statePinnedOne 0).refbit ∧
      (descAt (unPinPage statePinnedOne 2 3 true).2 0).fileId =
        (descAt statePinnedOne 0).fileId ∧
      (descAt (unPinPage statePinnedOne 2 3 true).2 0).pageNo =
        (descAt statePinnedOne 0).pageNo ∧
      (∀ j, j ≠ 0 → descAt (unPinPage statePinnedOne 2 3 true).2 j =
        descAt statePinnedOne j) ∧
      (unPinPage statePinnedOne 2 3 true).2.hashTable = statePinnedOne.hashTable ∧
      (unPinPage statePinnedOne 2 3 true).2.diskWrites = statePinnedOne.diskWrites ∧
      (unPinPage statePinnedOne 2 3 true).2.diskreads = statePinnedOne.diskreads) :=
  unPinPage_spec statePinnedOne 2 3 true 0 (by decide) (by decide)

/-- Claim C8: `disposePage`.  On an index hit for (f, p) the frame's
descriptor is reset to the free state and the index entry removed; an
index miss is not an error — the state is unchanged apart from the disk
deletion; and in both cases the Page Store is unconditionally instructed
to delete the page (`deletePage` is logged exactly once).  `disposePage`
returns normally in both cases (its type throws no exception). -/
theorem disposePage_spec (s : BufState) (f p : Nat) (hwf : WF s) :
    (∀ fr, htLookup s.hashTable f p = some fr →
      descAt (disposePage s f p) fr = clearedDesc fr ∧
      htLookup (disposePage s f p).hashTable f p = none) ∧
    (htLookup s.hashTable f p = none →
      disposePage s f p = { s with diskDeletes := (f, p) :: s.diskDeletes }) ∧
    (disposePage s f p).diskDeletes = (f, p) :: s.diskDeletes := by
  obtain ⟨hlen, hhand, hframe, hrange⟩ := hwf
  refine ⟨?_, ?_, ?_⟩
  · intro fr hl
    have hfrn : fr < s.numBufs := hrange _ (htLookup_mem _ _ _ _ hl)
    have hfr : fr < s.bufDescTable.length := by rw [hlen]; exact hfrn
    have hfn : (s.bufDescTable[fr]?.getD defaultDesc).frameNo = fr := by
      simpa [descAt, List.getD] using hframe fr hfrn
    unfold disposePage
    rw [hl]
    constructor
    · simp [descAt, List.getD, tableGet_set_self _ fr _ hfr, hfn]
    · exact htLookup_htRemove_self _ _ _
  · intro hl
    unfold disposePage
    rw [hl]
  · unfold disposePage
    cases htLookup s.hashTable f p <;> rfl

/-- Claim C8 (witness): concrete instances — a hit on `stateCleanVictim`
(page (5, 7) resident in frame 0) exercising all three conjuncts. -/
theorem disposePage_spec_witness :
    (∀ fr, htLookup stateCleanVictim.hashTable 5 7 = some fr →
      descAt (disposePage stateCleanVictim 5 7) fr = clearedDesc fr ∧
      htLookup (disposePage stateCleanVictim 5 7).hashTable 5 7 = none) ∧
    (htLookup stateCleanVictim.hashTable 5 7 = none →
      disposePage stateCleanVictim 5 7 =
        { stateCleanVictim with diskDeletes := (5, 7) :: stateCleanVictim.diskDeletes }) ∧
    (disposePage stateCleanVictim 5 7).diskDeletes =
      (5, 7) :: stateCleanVictim.diskDeletes :=
  disposePage_spec stateCleanVictim 5 7 (by decide)

/-- The clock sweep never touches the statistics counters. -/
theorem allocBufLoop_counters (fuel : Nat) :
    ∀ s : BufState, (allocBufLoop fuel s).2.accesses = s.accesses ∧
      (allocBufLoop fuel s).2.diskreads = s.diskreads := by
  induction fuel with
  | zero => intro s; exact ⟨rfl, rfl⟩
  | succ n ih =>
    intro s
    by_cases hv : (descAt s s.clockHand).valid = false
    · simp [allocBufLoop, hv]
    · by_cases hr : (descAt s s.clockHand).refbit = true
      · simpa [allocBufLoop, hv, hr] using ih (advanceClock (clearRefbitAtHand s))
      · by_cases hp : (descAt s s.clockHand).pinCnt = 0
        · by_cases hd : (descAt s s.clockHand).dirty = true
          · simp [allocBufLoop, hv, hr, hp, hd, evictDirty]
          · simp [allocBufLoop, hv, hr, hp, hd]
        · simpa [allocBufLoop, hv, hr, hp] using ih (advanceClock s)

/-- Claim C6 (counterexample): on an index miss that obtains a frame,
`readPage` increments the disk-read counter but not the access counter —
against the claim that both are incremented.  `stateFreeOne` has an empty
index and a free frame, so reading page (4, 2) is such a miss. -/
theorem readPage_miss_access_counter :
    stateFreeOne.accesses = 0 ∧
    stateFreeOne.diskreads = 0 ∧
    htLookup stateFreeOne.hashTable 4 2 = none ∧
    (allocBuf stateFreeOne).1 = some 0 ∧
    (readPage stateFreeOne 4 2).1.accesses = 0 ∧
    (readPage stateFreeOne 4 2).1.diskreads = 1 := by
  decide

/-- Claim C6 (amended): `readPage` statistics.  On an index hit it
increments the access counter by one and performs no Page Store I/O (the
disk-read counter and the write-back log are unchanged).  On an index miss
that obtains a frame it increments the disk-read counter by one but leaves
the access counter unchanged (the source omits `bufStats.accesses++` on
the miss path). -/
theorem readPage_counter_behavior (s : BufState) (f p : Nat) :
    (∀ fr, htLookup s.hashTable f p = some fr →
      (readPage s f p).1.accesses = s.accesses + 1 ∧
      (readPage s f p).1.diskreads = s.diskreads ∧
      (readPage s f p).1.diskWrites = s.diskWrites) ∧
    (∀ fr s1, htLookup s.hashTable f p = none → allocBuf s = (some fr, s1) →
      (readPage s f p).1.accesses = s.accesses ∧
      (readPage s f p).1.diskreads = s.diskreads + 1) := by
  constructor
  · intro fr hl
    unfold readPage
    rw [hl]
    exact ⟨rfl, rfl, rfl⟩
  · intro fr s1 hl ha
    have hc := allocBufLoop_counters (s.numBufs + 1) s
    rw [show allocBufLoop (s.numBufs + 1) s = allocBuf s from rfl, ha] at hc
    unfold readPage
    rw [hl, ha]
    exact ⟨hc.1, congrArg (fun n => n + 1) hc.2⟩

/-- Claim C6 (amended, witness): a hit on `stateCleanVictim` (page (5, 7))
and a miss on `stateFreeOne` (page (4, 2)), instantiating both branches. -/
theorem readPage_counter_behavior_witness :
    ((readPage stateCleanVictim 5 7).1.accesses = stateCleanVictim.accesses + 1 ∧
      (readPage stateCleanVictim 5 7).1.diskreads = stateCleanVictim.diskreads ∧
      (readPage stateCleanVictim 5 7).1.diskWrites = stateCleanVictim.diskWrites) ∧
    ((readPage stateFreeOne 4 2).1.accesses = stateFreeOne.accesses ∧
      (readPage stateFreeOne 4 2).1.diskreads = stateFreeOne.diskreads + 1) :=
  ⟨(readPage_counter_behavior stateCleanVictim 5 7).1 0 (by decide),
   (readPage_counter_behavior stateFreeOne 4 2).2 0 stateFreeOne (by decide) (by decide)⟩

/-- A `flushFile` iteration at a slot that belongs to the file and is
pinned or invalid throws an exception. -/
theorem flushStep_matching_errors (fid : Nat) (s : BufState) (id : Nat)
    (hm : (descAt s id).fileId = some fid)
    (hv : (descAt s id).pinCnt ≠ 0 ∨ (descAt s id).valid = false) :
    (flushStep fid s id).1.isSome = true := by
  unfold flushStep
  rw [if_pos hm]
  rcases hv with hp | hval
  · rw [if_pos hp]
    rfl
  · by_cases hp : (descAt s id).pinCnt ≠ 0
    · rw [if_pos hp]
      rfl
    · rw [if_neg hp, if_pos hval]
      rfl

/-- A `flushFile` iteration that does not throw leaves every other slot's
descriptor unchanged. -/
theorem flushStep_none_preserves (fid : Nat) (s : BufState) (id j : Nat)
    (hj : j ≠ id) :
    descAt (flushStep fid s id).2 j = descAt s j := by
  unfold flushStep
  by_cases hm : (descAt s id).fileId = some fid
  · rw [if_pos hm]
    by_cases hp : (descAt s id).pinCnt ≠ 0
    · rw [if_pos hp]
    · rw [if_neg hp]
      by_cases hval : (descAt s id).valid = false
      · rw [if_pos hval]
      · rw [if_neg hval]
        by_cases hd : (descAt s id).dirty = true
        · rw [if_pos hd]
          simp [descAt, List.getD, tableGet_set_ne _ id j _ hj]
        · rw [if_neg hd]
          simp [descAt, List.getD, tableGet_set_ne _ id j _ hj]
  · rw [if_neg hm]

/-- If some slot in the remaining sweep belongs to the file and is pinned
or invalid, the `flushFile` loop throws. -/
theorem flushFileLoop_violation (fid : Nat) (i : Nat) :
    ∀ ids : List Nat, ∀ s : BufState, i ∈ ids →
      (descAt s i).fileId = some fid →
      ((descAt s i).pinCnt ≠ 0 ∨ (descAt s i).valid = false) →
      (flushFileLoop fid s ids).1.isSome = true := by
  intro ids
  induction ids with
  | nil =>
    intro s hmem
    cases hmem
  | cons id rest ih =>
    intro s hmem hm hv
    rcases hs : flushStep fid s id with ⟨oe, s1⟩
    cases oe with
    | some e => simp [flushFileLoop, hs]
    | none =>
      have hne : i ≠ id := by
        intro h
        subst h
        have herr := flushStep_matching_errors fid s i hm hv
        rw [hs] at herr
        simp at herr
      have hmem2 : i ∈ rest := by
        rcases List.mem_cons.mp hmem with h | h
        · exact absurd h hne
        · exact h
      have hpres : descAt s1 i = descAt s i := by
        have := flushStep_none_preserves fid s id i hne
        rw [hs] at this
        exact this
      rw [flushFileLoop, hs]
      exact ih s1 hmem2 (by rw [hpres]; exact hm) (by rw [hpres]; exact hv)

/-- Claim C3 (amended): `flushFile` on a file with a pinned frame, or with
an invalid frame flagged as belonging to the file, throws an exception
(`PagePinned` or `BadBuffer`, whichever violation its single ascending
pass meets first).  It is not atomic: frames of the file at slots before
the violating slot have already been written back and cleared when the
exception is thrown (see the counterexample), while later slots are
untouched. -/
theorem flushFile_violation_errors (s : BufState) (fid : Nat)
    (h : ∃ i, i < s.numBufs ∧ (descAt s i).fileId = some fid ∧
      ((descAt s i).pinCnt ≠ 0 ∨ (descAt s i).valid = false)) :
    (flushFile fid s).1.isSome = true := by
  obtain ⟨i, hi, hm, hv⟩ := h
  exact flushFileLoop_violation fid i (List.range s.numBufs) s
    (List.mem_range.mpr hi) hm hv

/-- Claim C3 (amended, witness): `stateFlushPartial` has frame 1 of file 3
pinned, so `flushFile` throws. -/
theorem flushFile_violation_errors_witness :
    (flushFile 3 stateFlushPartial).1.isSome = true :=
  flushFile_violation_errors stateFlushPartial 3
    ⟨1, by decide, by decide, Or.inl (by decide)⟩

/-- Invariant of the clock sweep relative to the pool state `s` at entry:
the sweep only clears reference bits and moves the hand, so pool size,
table length, and every descriptor's `valid`, `pinCnt` and `frameNo` are
those of `s`, and the hand stays in range. -/
def sweepInv (s t : BufState) : Prop :=
  t.numBufs = s.numBufs ∧
  t.bufDescTable.length = t.numBufs ∧
  t.clockHand < t.numBufs ∧
  (∀ i : Nat, (descAt t i).valid = (descAt s i).valid ∧
    (descAt t i).pinCnt = (descAt s i).pinCnt ∧
    (descAt t i).frameNo = (descAt s i).frameNo)

theorem sweepInv_advanceClock (s t : BufState) (h : sweepInv s t) :
    sweepInv s (advanceClock t) := by
  obtain ⟨h1, h2, h3, h4⟩ := h
  refine ⟨h1, h2, ?_, h4⟩
  show (t.clockHand + 1) % t.numBufs < t.numBufs
  exact Nat.mod_lt _ (by omega)

theorem sweepInv_clearRefbit (s t : BufState) (h : sweepInv s t) :
    sweepInv s (clearRefbitAtHand t) := by
  obtain ⟨h1, h2, h3, h4⟩ := h
  have hlt : t.clockHand < t.bufDescTable.length := by rw [h2]; exact h3
  refine ⟨h1, ?_, h3, ?_⟩
  · show (t.bufDescTable.set t.clockHand _).length = t.numBufs
    rw [List.length_set]
    exact h2
  · intro i
    by_cases hi : i = t.clockHand
    · have heq : descAt (clearRefbitAtHand t) i = { descAt t i with refbit := false } := by
        rw [hi]
        simp [clearRefbitAtHand, descAt, List.getD, tableGet_set_self _ _ _ hlt]
      rw [heq]
      exact h4 i
    · have heq : descAt (clearRefbitAtHand t) i = descAt t i := by
        simp [clearRefbitAtHand, descAt, List.getD, tableGet_set_ne _ _ i _ hi]
      rw [heq]
      exact h4 i

/-- Under the clock hand, `frameNo` equals the hand position (from the
entry state's well-formedness carried through the sweep invariant). -/
theorem sweepInv_frameNo_hand (s t : BufState) (hwf : WF s) (hinv : sweepInv s t) :
    (descAt t t.clockHand).frameNo = t.clockHand := by
  obtain ⟨h1, h2, h3, h4⟩ := hinv
  rw [(h4 t.clockHand).2.2]
  exact hwf.2.2.1 t.clockHand (by rw [← h1]; exact h3)

/-- A successful clock sweep only returns a frame that was free or had
pin count zero in the entry state `s`. -/
theorem allocBufLoop_victim_unpinned (s : BufState) (hwf : WF s) :
    ∀ fuel : Nat, ∀ t t2 : BufState, ∀ f : Nat, sweepInv s t →
      allocBufLoop fuel t = (some f, t2) →
      (descAt s f).valid = true → (descAt s f).pinCnt = 0 := by
  intro fuel
  induction fuel with
  | zero =>
    intro t t2 f _ hrun
    simp [allocBufLoop] at hrun
  | succ n ih =>
    intro t t2 f hinv hrun hvalid
    simp only [allocBufLoop] at hrun
    by_cases hv : (descAt t t.clockHand).valid = false
    · rw [if_pos hv] at hrun
      have hf : (descAt t t.clockHand).frameNo = f := by
        have hc := congrArg Prod.fst hrun
        simpa using hc
      have hfh : f = t.clockHand := by
        rw [← hf, sweepInv_frameNo_hand s t hwf hinv]
      rw [hfh, ← (hinv.2.2.2 t.clockHand).1, hv] at hvalid
      cases hvalid
    · by_cases hr : (descAt t t.clockHand).refbit = true
      · rw [if_neg hv, if_pos hr] at hrun
        exact ih _ t2 f
          (sweepInv_advanceClock s _ (sweepInv_clearRefbit s t hinv)) hrun hvalid
      · by_cases hp : (descAt t t.clockHand).pinCnt = 0
        · rw [if_neg hv, if_neg hr, if_pos hp] at hrun
          have hf : (descAt t t.clockHand).frameNo = f := by
            by_cases hd : (descAt t t.clockHand).dirty = true
            · rw [if_pos hd] at hrun
              have hc := congrArg Prod.fst hrun
              simpa using hc
            · rw [if_neg hd] at hrun
              have hc := congrArg Prod.fst hrun
              simpa using hc
          have hfh : f = t.clockHand := by
            rw [← hf, sweepInv_frameNo_hand s t hwf hinv]
          rw [hfh, ← (hinv.2.2.2 t.clockHand).2.1]
          exact hp
        · rw [if_neg hv, if_neg hr, if_neg hp] at hrun
          exact ih _ t2 f (sweepInv_advanceClock s t hinv) hrun hvalid

/-- Claim C4: the clock replacement engine never claims a pinned frame.
For every well-formed pool state, if `allocBuf` returns frame `f` and
frame `f` was valid, then its pin count was zero — a valid frame is only
selected as a victim when nobody holds it. -/
theorem allocBuf_victim_unpinned (s : BufState) (hwf : WF s) (f : Nat)
    (s2 : BufState) (hrun : allocBuf s = (some f, s2))
    (hvalid : (descAt s f).valid = true) :
    (descAt s f).pinCnt = 0 := by
  refine allocBufLoop_victim_unpinned s hwf (s.numBufs + 1) s s2 f ?_ hrun hvalid
  exact ⟨rfl, hwf.1, hwf.2.1, fun i => ⟨rfl, rfl, rfl⟩⟩

/-- Claim C4 (witness): in `stateCleanVictim` the sweep selects the valid
frame 0, and indeed its pin count is zero. -/
theorem allocBuf_victim_unpinned_witness :
    (descAt stateCleanVictim 0).pinCnt = 0 :=
  allocBuf_victim_unpinned stateCleanVictim (by decide) 0 stateCleanVictim
    (by decide) (by decide)

/-- Claim C5 (counterexample): `allocBuf` can throw `BufferExceeded` even
though a valid frame with pin count 0 exists.  In `stateTwoMixed`, frame 1
is valid and unpinned (with its reference bit set) while frame 0 is
pinned; starting from hand 0 the sweep clears both reference bits (2 busy
visits), revisits frame 0 (pinned, third busy visit) and exhausts the
`frame_count <= numBufs` budget before reaching frame 1 again. -/
theorem allocBuf_exceeded_despite_unpinned :
    (allocBuf stateTwoMixed).1 = none ∧
    (descAt stateTwoMixed 1).valid = true ∧
    (descAt stateTwoMixed 1).pinCnt = 0 := by
  decide

/-- Number of clock advances needed to move the hand from `hand` to
`target` in a pool of `n` frames. -/
def distTo (n hand target : Nat) : Nat :=
  (target + n - hand) % n

theorem distTo_zero_iff (n hand target : Nat) (hh : hand < n) (ht : target < n) :
    distTo n hand target = 0 ↔ hand = target := by
  unfold distTo
  rcases Nat.lt_or_ge (target + n - hand) n with h | h
  · rw [Nat.mod_eq_of_lt h]
    omega
  · rw [Nat.mod_eq_sub_mod h, Nat.mod_eq_of_lt (by omega)]
    omega

theorem distTo_advance (n hand target : Nat) (hh : hand < n) (ht : target < n)
    (hne : hand ≠ target) :
    distTo n ((hand + 1) % n) target = distTo n hand target - 1 := by
  unfold distTo
  by_cases h1 : hand + 1 < n
  · have e0 : (hand + 1) % n = hand + 1 := Nat.mod_eq_of_lt h1
    rw [e0]
    rcases Nat.lt_or_ge (target + n - hand) n with h | h
    · have ea : (target + n - hand) % n = target + n - hand := Nat.mod_eq_of_lt h
      have eb : (target + n - (hand + 1)) % n = target + n - (hand + 1) :=
        Nat.mod_eq_of_lt (by omega)
      rw [ea, eb]
      omega
    · have hgt : n < target + n - hand := by omega
      have ea : (target + n - hand) % n = target + n - hand - n := by
        rw [Nat.mod_eq_sub_mod h]
        exact Nat.mod_eq_of_lt (by omega)
      have eb : (target + n - (hand + 1)) % n = target + n - (hand + 1) - n := by
        rw [Nat.mod_eq_sub_mod (by omega)]
        exact Nat.mod_eq_of_lt (by omega)
      rw [ea, eb]
      omega
  · have h1e : hand + 1 = n := by omega
    have e0 : (hand + 1) % n = 0 := by rw [h1e, Nat.mod_self]
    have e2 : (target + n - hand) % n = target + 1 := by
      have e2a : target + n - hand = target + 1 := by omega
      rw [e2a]
      exact Nat.mod_eq_of_lt (by omega)
    have e1 : (target + n - 0) % n = target := by
      have e1a : target + n - 0 = target + n := by omega
      rw [e1a, Nat.add_mod_right]
      exact Nat.mod_eq_of_lt ht
    rw [e0, e1, e2]
    omega

/-- A frame the sweep may claim on sight: free, or valid with pin count 0
and reference bit clear. -/
def claimable (t : BufState) (i : Nat) : Prop :=
  (descAt t i).valid = false ∨
    ((descAt t i).pinCnt = 0 ∧ (descAt t i).refbit = false)

theorem claimable_clearRefbit (t : BufState) (i : Nat)
    (hlt : t.clockHand < t.bufDescTable.length) (h : claimable t i) :
    claimable (clearRefbitAtHand t) i := by
  by_cases hi : i = t.clockHand
  · have heq : descAt (clearRefbitAtHand t) i = { descAt t i with refbit := false } := by
      rw [hi]
      simp [clearRefbitAtHand, descAt, List.getD, tableGet_set_self _ _ _ hlt]
    unfold claimable at h ⊢
    rw [heq]
    rcases h with h | h
    · exact Or.inl h
    · exact Or.inr ⟨h.1, rfl⟩
  · have heq : descAt (clearRefbitAtHand t) i = descAt t i := by
      simp [clearRefbitAtHand, descAt, List.getD, tableGet_set_ne _ _ i _ hi]
    unfold claimable
    rw [heq]
    exact h

/-- If a claimable frame lies within the remaining visit budget, the
clock sweep succeeds. -/
theorem allocBufLoop_succeeds (s : BufState) (target : Nat) :
    ∀ fuel : Nat, ∀ t : BufState, sweepInv s t → target < t.numBufs →
      claimable t target →
      distTo t.numBufs t.clockHand target < fuel →
      (allocBufLoop fuel t).1.isSome = true := by
  intro fuel
  induction fuel with
  | zero =>
    intro t _ _ _ hdist
    exact absurd hdist (Nat.not_lt_zero _)
  | succ n ih =>
    intro t hinv htar hcl hdist
    obtain ⟨h1, h2, h3, h4⟩ := hinv
    simp only [allocBufLoop]
    by_cases hv : (descAt t t.clockHand).valid = false
    · rw [if_pos hv]
      rfl
    · by_cases hr : (descAt t t.clockHand).refbit = true
      · rw [if_neg hv, if_pos hr]
        have hne : t.clockHand ≠ target := by
          intro he
          rcases hcl with hc | hc
          · rw [← he] at hc
            exact hv hc
          · rw [← he] at hc
            rw [hc.2] at hr
            cases hr
        have h0 : distTo t.numBufs t.clockHand target ≠ 0 := fun he =>
          hne ((distTo_zero_iff _ _ _ h3 htar).mp he)
        refine ih (advanceClock (clearRefbitAtHand t))
          (sweepInv_advanceClock s _ (sweepInv_clearRefbit s t ⟨h1, h2, h3, h4⟩))
          htar ?_ ?_
        · exact claimable_clearRefbit t target (by rw [h2]; exact h3) hcl
        · show distTo t.numBufs ((t.clockHand + 1) % t.numBufs) target < n
          rw [distTo_advance t.numBufs t.clockHand target h3 htar hne]
          omega
      · by_cases hp : (descAt t t.clockHand).pinCnt = 0
        · rw [if_neg hv, if_neg hr, if_pos hp]
          by_cases hd : (descAt t t.clockHand).dirty = true
          · rw [if_pos hd]
            rfl
          · rw [if_neg hd]
            rfl
        · rw [if_neg hv, if_neg hr, if_neg hp]
          have hne : t.clockHand ≠ target := by
            intro he
            rcases hcl with hc | hc
            · rw [← he] at hc
              exact hv hc
            · rw [← he] at hc
              exact hp hc.1
          have h0 : distTo t.numBufs t.clockHand target ≠ 0 := fun he =>
            hne ((distTo_zero_iff _ _ _ h3 htar).mp he)
          refine ih (advanceClock t)
            (sweepInv_advanceClock s t ⟨h1, h2, h3, h4⟩) htar hcl ?_
          show distTo t.numBufs ((t.clockHand + 1) % t.numBufs) target < n
          rw [distTo_advance t.numBufs t.clockHand target h3 htar hne]
          omega

/-- Claim C5 (amended): exhaustion behavior of `allocBuf`.  The sweep
throws `BufferExceeded` exactly when its busy-visit budget (`numBufs + 1`,
i.e. when the count exceeds the pool size) runs out; for every well-formed
pool state containing a frame that is free, or valid with pin count 0 and
reference bit clear, the call succeeds (returns a frame id).  A valid
unpinned frame whose reference bit is still set does not guarantee
success (see the counterexample). -/
theorem allocBuf_succeeds_of_claimable (s : BufState) (hwf : WF s) (i : Nat)
    (hi : i < s.numBufs)
    (hclaim : (descAt s i).valid = false ∨
      ((descAt s i).pinCnt = 0 ∧ (descAt s i).refbit = false)) :
    (allocBuf s).1.isSome = true := by
  have hd : distTo s.numBufs s.clockHand i < s.numBufs + 1 := by
    have := Nat.mod_lt (i + s.numBufs - s.clockHand) (show 0 < s.numBufs by
      have := hwf.2.1
      omega)
    unfold distTo
    omega
  exact allocBufLoop_succeeds s i (s.numBufs + 1) s
    ⟨rfl, hwf.1, hwf.2.1, fun j => ⟨rfl, rfl, rfl⟩⟩ hi hclaim hd

/-- Claim C5 (amended, witness): `stateFreeOne` has a free frame, so
`allocBuf` succeeds. -/
theorem allocBuf_succeeds_of_claimable_witness :
    (allocBuf stateFreeOne).1.isSome = true :=
  allocBuf_succeeds_of_claimable stateFreeOne (by decide) 0 (by decide)
    (Or.inl (by decide))

/-- Claim C10: `disposePage` performs no pin-count check and raises no
error (its return type throws no exception): even when the resident page
(f, p) is pinned, the descriptor is cleared, the index entry removed, and
the on-disk deletion is issued while a caller still holds a handle. -/
theorem disposePage_pinned_spec (s : BufState) (f p fr : Nat) (hwf : WF s)
    (hl : htLookup s.hashTable f p = some fr)
    (hpin : 0 < (descAt s fr).pinCnt) :
    descAt (disposePage s f p) fr = clearedDesc fr ∧
    htLookup (disposePage s f p).hashTable f p = none ∧
    (disposePage s f p).diskDeletes = (f, p) :: s.diskDeletes := by
  obtain ⟨hlen, hhand, hframe, hrange⟩ := hwf
  have hfrn : fr < s.numBufs := hrange _ (htLookup_mem _ _ _ _ hl)
  have hfr : fr < s.bufDescTable.length := by rw [hlen]; exact hfrn
  have hfn : (s.bufDescTable[fr]?.getD defaultDesc).frameNo = fr := by
    simpa [descAt, List.getD] using hframe fr hfrn
  unfold disposePage
  rw [hl]
  refine ⟨?_, htLookup_htRemove_self _ _ _, rfl⟩
  simp [descAt, List.getD, tableGet_set_self _ fr _ hfr, hfn]

/-- Claim C10 (witness): concrete instance on `statePinnedOne`, whose
page (2, 3) is resident in frame 0 with pin count 1. -/
theorem disposePage_pinned_spec_witness :
    descAt (disposePage statePinnedOne 2 3) 0 = clearedDesc 0 ∧
    htLookup (disposePage statePinnedOne 2 3).hashTable 2 3 = none ∧
    (disposePage statePinnedOne 2 3).diskDeletes =
      (2, 3) :: statePinnedOne.diskDeletes :=
  disposePage_pinned_spec statePinnedOne 2 3 0 (by decide) (by decide) (by decide)

end BadgerDB
